import Mathlib

/-
Verification development for the quiz-server repository: a shallow
embedding of the real-time quiz session engine (scoring, question
sequencing, completion gating, websocket hub membership and broadcast,
inbound message handling) together with theorems settling the spec
claims about it.

Conventions of the embedding:
- Go maps and slices become association lists / lists.
- Go `int` is 64-bit. Where a claim quantifies over a client-suppliable
  value whose arithmetic can reach the wrap region (the elapsed-seconds
  input of calculateScore), the arithmetic is modelled with an explicit
  two's-complement wrap (`wrap64`). Question indices and row counts are
  bounded by the sizes of the stored data, far below the wrap region,
  and stay plain `Int`/`Nat`.
- Fallible Go calls become `Except String`; a Go panic is modelled as a
  distinguished outcome, never silently erased.
- The JSON `omitempty` tag on `QuestionDTO.CorrectAnswer` means the
  wire payload omits the field exactly when the string is empty, so
  "the correct-answer marker is omitted" is modelled as
  `correctAnswer = ""`.
-/

namespace QuizServer

/-! ## Data model (backend/internal/models/quiz.go, dto.go) -/

/-- models.Option (answer option row). Named `OptionRow` because `Option`
is taken by Lean's core library. -/
structure OptionRow where
  id : Nat
  text : String
deriving Repr, DecidableEq

/-- models.Question. -/
structure Question where
  id : Nat
  quizID : Nat
  text : String
  options : List OptionRow
  correctAnswer : String
  timeLimit : Int
deriving Repr, DecidableEq

/-- models.OptionDTO. -/
structure OptionDTO where
  id : Nat
  text : String
deriving Repr, DecidableEq

/-- models.QuestionDTO. `correctAnswer` carries the `omitempty` JSON tag:
the marker is absent from the wire payload iff the string is empty. -/
structure QuestionDTO where
  id : Nat
  text : String
  options : List OptionDTO
  timeLimit : Int
  correctAnswer : String
deriving Repr, DecidableEq

/-- models.Question.ToDTO (models/dto.go): strips options down to
(id, text), applies the 30-second default time limit, and includes the
correct answer only for the host variant. -/
def Question.toDTO (q : Question) (isHost : Bool) : QuestionDTO :=
  let optionDTOs := q.options.map (fun opt => OptionDTO.mk opt.id opt.text)
  let timeLimit := if q.timeLimit ≤ 0 then 30 else q.timeLimit
  { id := q.id
    text := q.text
    options := optionDTOs
    timeLimit := timeLimit
    correctAnswer := if isHost then q.correctAnswer else "" }

/-! ## Scoring (backend/internal/quiz/service.go, calculateScore) -/

/-- Two's-complement 64-bit wrap: reduce an integer into
[-2^63, 2^63), the result Go's `int` (int64) arithmetic produces. The
numerals are 2^63 and 2^64. -/
def wrap64 (n : Int) : Int :=
  (n + 9223372036854775808) % 18446744073709551616 - 9223372036854775808

lemma wrap64_eq_self (n : Int) (h1 : -9223372036854775808 ≤ n)
    (h2 : n < 9223372036854775808) : wrap64 n = n := by
  unfold wrap64
  omega

/-- calculateScore (service.go): 0 on mismatch, otherwise 1000 minus
10 per second spent, floored at 0. `timeSpent` is the client-supplied
elapsed-seconds `int`; both the multiplication and the subtraction are
Go int64 operations and wrap. -/
def calculateScore (answer correctAnswer : String) (timeSpent : Int) : Int :=
  if answer ≠ correctAnswer then 0
  else
    let score : Int := 1000
    let timeDeduction := wrap64 (timeSpent * 10)
    let score := wrap64 (score - timeDeduction)
    if score < 0 then 0 else score

/-- C2 (counterexample): the claim's formula fails at the extreme but
client-suppliable elapsed time 10^18: the int64 multiplication
10^18 * 10 wraps to a large negative deduction, so a correct answer
scores 8446744073709552616, not max(0, 1000 - 10 * 10^18) = 0. -/
theorem c2_overflow_counterexample :
    calculateScore "A" "A" 1000000000000000000 = 8446744073709552616 ∧
    (8446744073709552616 : Int) ≠ max 0 (1000 - 10 * 1000000000000000000) := by
  constructor
  · decide
  · decide

/-- C2 (amended): an incorrect answer scores 0 at every elapsed time;
a correct answer scores max(0, 1000 - 10 * elapsedSeconds) for every
elapsed-seconds value whose tenfold stays inside int64 (all |t| ≤ 2^59,
covering every realistic elapsed time); in particular a correct answer
at 0 seconds scores 1000 and at 150 seconds scores 0. Beyond that range
the 64-bit arithmetic wraps (see the counterexample). -/
theorem c2_calculateScore_bounded_spec :
    (∀ (answer correctAnswer : String) (t : Int),
        answer ≠ correctAnswer → calculateScore answer correctAnswer t = 0) ∧
    (∀ (answer : String) (t : Int),
        -576460752303423488 ≤ t → t ≤ 576460752303423488 →
        calculateScore answer answer t = max 0 (1000 - 10 * t)) ∧
    (∀ s : String, calculateScore s s 0 = 1000) ∧
    (∀ s : String, calculateScore s s 150 = 0) := by
  have hgen : ∀ (answer : String) (t : Int),
      -576460752303423488 ≤ t → t ≤ 576460752303423488 →
      calculateScore answer answer t = max 0 (1000 - 10 * t) := by
    intro answer t h1 h2
    simp only [calculateScore, if_neg (by simp : ¬ answer ≠ answer)]
    rw [wrap64_eq_self (t * 10) (by omega) (by omega)]
    rw [wrap64_eq_self (1000 - t * 10) (by omega) (by omega)]
    split_ifs with h
    · omega
    · omega
  refine ⟨?_, hgen, ?_, ?_⟩
  · intro answer correctAnswer t h
    simp only [calculateScore, if_pos h]
  · intro s
    simpa using hgen s 0 (by omega) (by omega)
  · intro s
    simpa using hgen s 150 (by omega) (by omega)

/-! ## Persistent store model (backend/internal/quiz/repository.go)

GORM rows become lists; the relational queries become list traversals.
`users` mirrors the `users` table joined by the leaderboard query.
`progressCreateFails` is a fault-injection flag for `db.Create` of a
progress row (a store fault), so that the error path of
`GetUserQuestionIndex` is representable. -/

/-- models.Quiz (the fields the engine reads). -/
structure Quiz where
  id : Nat
  creatorID : Nat
  quizCode : String
  isActive : Bool
deriving Repr, DecidableEq

/-- models.UserQuizResponse. -/
structure UserQuizResponse where
  userID : Nat
  quizID : Nat
  questionID : Nat
  answer : String
  score : Int
  timeSpent : Int
deriving Repr, DecidableEq

/-- models.UserQuizProgress. -/
structure UserQuizProgress where
  userID : Nat
  quizID : Nat
  nextIndex : Int
deriving Repr, DecidableEq

/-- The relational store state. -/
structure DB where
  quizzes : List Quiz
  users : List (Nat × String)
  questions : List Question
  responses : List UserQuizResponse
  progress : List UserQuizProgress
  progressCreateFails : Bool
deriving Repr, DecidableEq

/-- Repository.GetQuizByCode (also standing in for the cache-backed
Service.GetQuizByCode, modelling the Redis quiz cache as read-through
coherent with the store). -/
def DB.getQuizByCode (db : DB) (code : String) : Except String Quiz :=
  match db.quizzes.find? (fun q => q.quizCode == code) with
  | some q => .ok q
  | none => .error "record not found"

/-- Repository.GetQuizByID. -/
def DB.getQuizByID (db : DB) (quizID : Nat) : Except String Quiz :=
  match db.quizzes.find? (fun q => q.id == quizID) with
  | some q => .ok q
  | none => .error "record not found"

/-- Repository.GetQuestion. -/
def DB.getQuestion (db : DB) (questionID : Nat) : Except String Question :=
  match db.questions.find? (fun q => q.id == questionID) with
  | some q => .ok q
  | none => .error "record not found"

/-- Repository.GetQuizQuestions: all question rows of the quiz. -/
def DB.getQuizQuestions (db : DB) (quizID : Nat) : List Question :=
  db.questions.filter (fun q => q.quizID == quizID)

/-- Repository.IsUserHost: looks the quiz up by id and compares creator. -/
def DB.isUserHost (db : DB) (quizID userID : Nat) : Except String Bool :=
  match db.getQuizByID quizID with
  | .ok quiz => .ok (quiz.creatorID == userID)
  | .error e => .error e

/-- Repository.GetFinishedPlayersCount: number of progress rows of the
quiz whose next_index is at least the question count. -/
def DB.getFinishedPlayersCount (db : DB) (quizID : Nat) (totalQuestions : Int) : Nat :=
  (db.progress.filter (fun p => p.quizID == quizID && totalQuestions ≤ p.nextIndex)).length

/-- Repository.GetUniqueParticipantsForQuiz: number of distinct user ids
with at least one response row for the quiz. -/
def DB.getUniqueParticipantsForQuiz (db : DB) (quizID : Nat) : Nat :=
  ((db.responses.filter (fun r => r.quizID == quizID)).map (fun r => r.userID)).dedup.length

/-- Repository.GetUserQuestionIndex: returns the stored next index, or —
when no row exists — creates a row with NextIndex 0 and returns 0; the
create itself can fail (store fault), in which case nothing is stored. -/
def DB.getUserQuestionIndex (db : DB) (userID quizID : Nat) :
    Except String Int × DB :=
  match db.progress.find? (fun p => p.userID == userID && p.quizID == quizID) with
  | some p => (.ok p.nextIndex, db)
  | none =>
      if db.progressCreateFails then
        (.error "create failed", db)
      else
        (.ok 0, { db with progress := db.progress ++ [⟨userID, quizID, 0⟩] })

/-- Repository.UpdateUserQuestionIndex: requires an existing row; errors
(without writing) when none exists. -/
def DB.updateUserQuestionIndex (db : DB) (userID quizID : Nat) (newIndex : Int) :
    Except String Unit × DB :=
  match db.progress.find? (fun p => p.userID == userID && p.quizID == quizID) with
  | some _ =>
      (.ok (), { db with progress := db.progress.map (fun p =>
        if p.userID == userID && p.quizID == quizID then { p with nextIndex := newIndex } else p) })
  | none => (.error "record not found", db)

/-- Repository.ResetQuizProgress: next_index := 0 on every progress row
of the quiz. -/
def DB.resetQuizProgress (db : DB) (quizID : Nat) : DB :=
  { db with progress := db.progress.map (fun p =>
      if p.quizID == quizID then { p with nextIndex := 0 } else p) }

/-- Repository.UpdateQuiz (db.Save): replaces the row with the same id. -/
def DB.updateQuiz (db : DB) (quiz : Quiz) : DB :=
  { db with quizzes := db.quizzes.map (fun q => if q.id == quiz.id then quiz else q) }

/-- Repository.SaveResponse (db.Create). -/
def DB.saveResponse (db : DB) (r : UserQuizResponse) : DB :=
  { db with responses := db.responses ++ [r] }

/-- Repository.GetLeaderboard: joins responses with users, groups by
username and sums scores. The SQL orders by total DESC; no claim inspects
the ordering, so the embedding keeps first-appearance order. -/
def DB.getLeaderboard (db : DB) (quizID : Nat) : List (String × Int) :=
  let rs := db.responses.filter (fun r => r.quizID == quizID)
  let joined := rs.filterMap (fun r => (db.users.lookup r.userID).map (fun name => (name, r.score)))
  let names := (joined.map Prod.fst).dedup
  names.map (fun n => (n, (((joined.filter (fun p => p.fst == n)).map Prod.snd).sum)))

/-! ## Redis ranking cache (backend/pkg/cache/redis.go) -/

/-- The ranking cache: quiz code → stored score entries.
SetLeaderboard deletes and rewrites the key; GetLeaderboard on a missing
key yields the empty range (Redis returns no error there). -/
structure Cache where
  leaderboards : List (String × List (String × Int))
deriving Repr, DecidableEq

/-- RedisCache.SetLeaderboard. -/
def Cache.setLeaderboard (c : Cache) (quizCode : String) (scores : List (String × Int)) : Cache :=
  { leaderboards := (quizCode, scores) :: c.leaderboards.filter (fun p => p.fst ≠ quizCode) }

/-- RedisCache.GetLeaderboard. -/
def Cache.getLeaderboard (c : Cache) (quizCode : String) : List (String × Int) :=
  (c.leaderboards.lookup quizCode).getD []

/-! ## Wire messages emitted by the service through the hub -/

/-- websocket.UserInfo: the identity a client announces with join_quiz. -/
structure UserInfo where
  userID : Nat
  username : String
  email : String
deriving Repr, DecidableEq

/-- Payloads of the outbound envelopes the engine emits. -/
inductive WireData where
  | questionMsg (q : QuestionDTO) (index : Int) (total : Nat) (quizId : Nat)
  | leaderboardMsg (entries : List (String × Int))
  | textMsg (message : String)
  | answerUpdate (userId : Nat) (questionId : Nat)
  | countMsg (count : Int)
  | participantListMsg (participants : List UserInfo) (count : Int) (host : Option UserInfo)
  | emptyMsg
deriving Repr, DecidableEq

/-- A delivery request handed to the hub: room-wide broadcast or targeted
send (BroadcastMessage / SendMessageToUser). -/
inductive OutMsg where
  | broadcast (quizCode : String) (type_ : String) (data : WireData)
  | toUser (userID : Nat) (type_ : String) (data : WireData)
deriving Repr, DecidableEq

/-! ## Session sequencer (backend/internal/quiz/service.go) -/

/-- Service.updateLeaderboard: recompute entries from the store and
rewrite the ranking cache key for the quiz code. -/
def updateLeaderboard (db : DB) (cache : Cache) (quizID : Nat) : Except String Cache :=
  let entries := db.getLeaderboard quizID
  match db.getQuizByID quizID with
  | .error e => .error e
  | .ok quiz => .ok (cache.setLeaderboard quiz.quizCode entries)

/-- The waiting notice sent to a finished participant. -/
def quizEndWaitMessage : String :=
  "You have finished the quiz. Please wait for other players to finish."

/-- Service.StartQuiz: look the quiz up, reset every progress row of the
quiz to 0, require a nonempty question list, mark the quiz active, and
broadcast question[0] in the host variant to the whole room. -/
def startQuiz (db : DB) (quizCode : String) (_userID : Nat) :
    Except String (DB × List OutMsg) :=
  match db.getQuizByCode quizCode with
  | .error e => .error e
  | .ok quiz =>
    let db1 := db.resetQuizProgress quiz.id
    let questions := db1.getQuizQuestions quiz.id
    if hlen : questions.length = 0 then .error "no questions found for quiz"
    else
      let db2 := db1.updateQuiz { quiz with isActive := true }
      .ok (db2, [OutMsg.broadcast quizCode "question"
        (WireData.questionMsg ((questions.get ⟨0, by omega⟩).toDTO true) 0
          questions.length quiz.id)])

/-- Service.HandleNextQuestion (host-driven advance): broadcast quiz_end
past the last question, otherwise broadcast the next question in the host
variant to the whole room. -/
def handleNextQuestion (db : DB) (quizCode : String) (currentIndex : Int) :
    Except String (List OutMsg) :=
  match db.getQuizByCode quizCode with
  | .error e => .error e
  | .ok quiz =>
    let questions := db.getQuizQuestions quiz.id
    let nextIndex := currentIndex + 1
    if hge : questions.length ≤ nextIndex then
      .ok [OutMsg.broadcast quizCode "quiz_end" WireData.emptyMsg]
    else if hneg : nextIndex < 0 then
      .error "runtime panic: index out of range"
    else
      .ok [OutMsg.broadcast quizCode "question"
        (WireData.questionMsg ((questions.get ⟨nextIndex.toNat, by omega⟩).toDTO true)
          nextIndex questions.length quiz.id)]

/-- Service.HandleNextQuestionForUser (participant-driven advance): skip
hosts; when the user has exhausted the questions run the completion check
(final-leaderboard broadcast vs targeted waiting notice); otherwise send
that one user the next question in the participant variant. -/
def handleNextQuestionForUser (db : DB) (cache : Cache) (userID : Nat)
    (quizCode : String) (nextIndex : Int) : Except String (Cache × List OutMsg) :=
  match db.getQuizByCode quizCode with
  | .error e => .error e
  | .ok quiz =>
    let questions := db.getQuizQuestions quiz.id
    let totalQuestions := questions.length
    let isHost := match db.isUserHost quiz.id userID with
      | .ok b => b
      | .error _ => false
    if isHost then .ok (cache, [])
    else if hge : (totalQuestions : Int) ≤ nextIndex then
      let finishedCount := db.getFinishedPlayersCount quiz.id totalQuestions
      let totalParticipants := db.getUniqueParticipantsForQuiz quiz.id
      if totalParticipants ≤ finishedCount then
        let cache1 := match updateLeaderboard db cache quiz.id with
          | .ok c => c
          | .error _ => cache
        let leaderboard := cache1.getLeaderboard quiz.quizCode
        .ok (cache1, [OutMsg.broadcast quizCode "final_leaderboard"
          (WireData.leaderboardMsg leaderboard)])
      else
        .ok (cache, [OutMsg.toUser userID "quiz_end_wait"
          (WireData.textMsg quizEndWaitMessage)])
    else if hneg : nextIndex < 0 then
      .error "runtime panic: index out of range"
    else
      .ok (cache, [OutMsg.toUser userID "question"
        (WireData.questionMsg ((questions.get ⟨nextIndex.toNat, by omega⟩).toDTO false)
          nextIndex totalQuestions quiz.id)])

/-- The personal advance spawned by ProcessAnswer as a goroutine: the
user it serves, the quiz code, and the index to serve. -/
structure PendingTask where
  userID : Nat
  quizCode : String
  nextIndex : Int
deriving Repr, DecidableEq

/-- Service.ProcessAnswer: ignore host answers; score and persist the
response; read the current next-index treating a lookup failure as 0;
persist index+1 (failure logged, not fatal); spawn the personal advance
for index+1. Returns (score result, store after, spawned tasks). -/
def processAnswer (db : DB) (resp : UserQuizResponse) :
    Except String Int × DB × List PendingTask :=
  match db.getQuizByID resp.quizID with
  | .error e => (.error e, db, [])
  | .ok quiz =>
    if quiz.creatorID == resp.userID then (.ok 0, db, [])
    else
      match db.getQuestion resp.questionID with
      | .error e => (.error e, db, [])
      | .ok question =>
        let score := calculateScore resp.answer question.correctAnswer resp.timeSpent
        let db1 := db.saveResponse { resp with score := score }
        let lookupResult := db1.getUserQuestionIndex resp.userID quiz.id
        let currentIndex := match lookupResult.1 with
          | .ok i => i
          | .error _ => 0
        let db2 := lookupResult.2
        let newIndex := currentIndex + 1
        let db3 := (db2.updateUserQuestionIndex resp.userID quiz.id newIndex).2
        (.ok score, db3, [⟨resp.userID, quiz.quizCode, newIndex⟩])

/-! ## Interleaved execution of answer submissions and spawned advances

ProcessAnswer spawns the personal advance on a separate goroutine, so a
submission and the advance it spawned need not run back to back. A
schedule is a list of actions; running a spawned task consumes it from
the pending pool and executes `handleNextQuestionForUser` against the
store state at its scheduling time, exactly as the goroutine would. -/

/-- One schedulable unit of work. -/
inductive Action where
  | submit (resp : UserQuizResponse)
  | runTask (t : PendingTask)
deriving Repr, DecidableEq

/-- System state: store, ranking cache, spawned-but-unscheduled
goroutines, and the log of delivery requests handed to the hub. -/
structure SysState where
  db : DB
  cache : Cache
  pending : List PendingTask
  log : List OutMsg
deriving Repr, DecidableEq

/-- Execute one action. A `runTask` for a goroutine that was never
spawned (or already ran) is a no-op, so every action list is a legal
interleaving. -/
def stepAction (s : SysState) (a : Action) : SysState :=
  match a with
  | .submit resp =>
      let r := processAnswer s.db resp
      { s with db := r.2.1, pending := s.pending ++ r.2.2 }
  | .runTask t =>
      if s.pending.contains t then
        match handleNextQuestionForUser s.db s.cache t.userID t.quizCode t.nextIndex with
        | .ok (c, msgs) =>
            { db := s.db, cache := c, pending := s.pending.erase t, log := s.log ++ msgs }
        | .error _ => { s with pending := s.pending.erase t }
      else s

/-- Run a schedule from a state. -/
def runSchedule (s : SysState) (schedule : List Action) : SysState :=
  schedule.foldl stepAction s

/-- Number of room-wide final-leaderboard broadcasts in a delivery log. -/
def countFinalLeaderboard (log : List OutMsg) : Nat :=
  log.countP (fun m => match m with
    | .broadcast _ t _ => t == "final_leaderboard"
    | _ => false)

/-! Concrete session used for the completion-race scenario: one active
quiz (id 1, code "Q", host 100) with two questions, and two participants
who have both already answered question 0 and sit at progress index 1. -/

/-- Store state of the race scenario, before the final round of answers. -/
def raceDB : DB :=
  { quizzes := [⟨1, 100, "Q", true⟩]
    users := [(1, "alice"), (2, "bob")]
    questions := [⟨10, 1, "one plus one?", [], "2", 30⟩, ⟨11, 1, "two plus two?", [], "4", 30⟩]
    responses := [⟨1, 1, 10, "2", 1000, 0⟩, ⟨2, 1, 10, "2", 1000, 0⟩]
    progress := [⟨1, 1, 1⟩, ⟨2, 1, 1⟩]
    progressCreateFails := false }

/-- The racing interleaving: both participants submit their last answer,
then the two spawned advance goroutines run, each after both progress
rows were already committed. -/
def raceSchedule : List Action :=
  [ .submit ⟨1, 1, 11, "4", 0, 0⟩,
    .submit ⟨2, 1, 11, "4", 0, 0⟩,
    .runTask ⟨1, "Q", 2⟩,
    .runTask ⟨2, "Q", 2⟩ ]

/-- Final state of the race scenario. -/
def raceFinal : SysState :=
  runSchedule { db := raceDB, cache := ⟨[]⟩, pending := [], log := [] } raceSchedule

/-- C1: the final-leaderboard broadcast is claimed to fire at most once
per session activation even when several participants finish
concurrently. The code has no once-guard: in the legal interleaving
`raceSchedule` — both participants' final answers and progress updates
commit before either spawned completion check runs — each check observes
finishedCount = 2 ≥ totalParticipants = 2 and broadcasts, so one
activation produces two final-leaderboard broadcasts. -/
theorem c1_duplicate_final_leaderboard :
    countFinalLeaderboard raceFinal.log = 2 := by decide

/-- C4: when a non-host participant exhausts the question sequence, the
sequencer compares the count of progress rows at or past the question
total with the count of distinct responders; at or above that threshold
it broadcasts the final leaderboard to the room, and otherwise it sends
only that user the quiz_end_wait notice. -/
theorem c4_completion_gating (db : DB) (cache : Cache) (userID : Nat)
    (quizCode : String) (nextIndex : Int) (quiz : Quiz)
    (hfind : db.getQuizByCode quizCode = .ok quiz)
    (hid : db.getQuizByID quiz.id = .ok quiz)
    (hnothost : quiz.creatorID ≠ userID)
    (hdone : ((db.getQuizQuestions quiz.id).length : Int) ≤ nextIndex) :
    (db.getUniqueParticipantsForQuiz quiz.id ≤
        db.getFinishedPlayersCount quiz.id (db.getQuizQuestions quiz.id).length →
      ∃ c entries, handleNextQuestionForUser db cache userID quizCode nextIndex =
        .ok (c, [OutMsg.broadcast quizCode "final_leaderboard"
          (WireData.leaderboardMsg entries)])) ∧
    (db.getFinishedPlayersCount quiz.id (db.getQuizQuestions quiz.id).length <
        db.getUniqueParticipantsForQuiz quiz.id →
      handleNextQuestionForUser db cache userID quizCode nextIndex =
        .ok (cache, [OutMsg.toUser userID "quiz_end_wait"
          (WireData.textMsg quizEndWaitMessage)])) := by
  have hhost : db.isUserHost quiz.id userID = .ok false := by
    unfold DB.isUserHost
    rw [hid]
    simp [hnothost]
  constructor
  · intro hge
    simp only [handleNextQuestionForUser, hfind, hhost]
    simp only [Bool.false_eq_true, if_false, dif_pos hdone, if_pos hge]
    exact ⟨_, _, rfl⟩
  · intro hlt
    simp only [handleNextQuestionForUser, hfind, hhost]
    simp only [Bool.false_eq_true, if_false, dif_pos hdone,
      if_neg (by omega : ¬ db.getUniqueParticipantsForQuiz quiz.id ≤
        db.getFinishedPlayersCount quiz.id (db.getQuizQuestions quiz.id).length)]

/-- Witness for C4 at a concrete store: with both progress rows at 2 the
broadcast branch fires, and with only one of the two responders finished
the waiting branch fires. -/
theorem c4_completion_gating_witness :
    (∃ c entries, handleNextQuestionForUser
        { raceDB with progress := [⟨1, 1, 2⟩, ⟨2, 1, 2⟩] } ⟨[]⟩ 1 "Q" 2 =
      .ok (c, [OutMsg.broadcast "Q" "final_leaderboard"
        (WireData.leaderboardMsg entries)])) ∧
    handleNextQuestionForUser
        { raceDB with progress := [⟨1, 1, 1⟩, ⟨2, 1, 2⟩] } ⟨[]⟩ 2 "Q" 2 =
      .ok (⟨[]⟩, [OutMsg.toUser 2 "quiz_end_wait"
        (WireData.textMsg quizEndWaitMessage)]) := by
  constructor
  · exact (c4_completion_gating { raceDB with progress := [⟨1, 1, 2⟩, ⟨2, 1, 2⟩] }
      ⟨[]⟩ 1 "Q" 2 ⟨1, 100, "Q", true⟩
      rfl rfl (by decide) (by decide)).1 (by decide)
  · exact (c4_completion_gating { raceDB with progress := [⟨1, 1, 1⟩, ⟨2, 1, 2⟩] }
      ⟨[]⟩ 2 "Q" 2 ⟨1, 100, "Q", true⟩
      rfl rfl (by decide) (by decide)).2 (by decide)

lemma getQuizByCode_ok_iff (db : DB) (code : String) (quiz : Quiz) :
    db.getQuizByCode code = .ok quiz ↔
      db.quizzes.find? (fun q => q.quizCode == code) = some quiz := by
  unfold DB.getQuizByCode
  cases h : db.quizzes.find? (fun q => q.quizCode == code) <;> simp [h]

/-- Saving the updated quiz row leaves it the first row found under the
quiz code, provided the code determines the quiz id in the store. -/
lemma find?_map_saveQuiz (l : List Quiz) (quiz newQuiz : Quiz) (code : String)
    (hnc : newQuiz.quizCode = quiz.quizCode) (hni : newQuiz.id = quiz.id)
    (hfind : l.find? (fun q => q.quizCode == code) = some quiz)
    (hcode : ∀ q ∈ l, q.quizCode = code → q.id = quiz.id) :
    (l.map (fun q => if q.id == newQuiz.id then newQuiz else q)).find?
      (fun q => q.quizCode == code) = some newQuiz := by
  induction l with
  | nil => simp at hfind
  | cons q t ih =>
    have hquizcode : quiz.quizCode = code := by
      have := List.find?_some hfind
      simpa using this
    rw [List.map_cons]
    by_cases hq : q.quizCode = code
    · have hq' : q = quiz := by
        rw [List.find?_cons_of_pos _ (by simpa using hq)] at hfind
        exact Option.some.inj hfind
      subst hq'
      rw [if_pos (by simp [hni])]
      rw [List.find?_cons_of_pos _ (by simp [hnc, hquizcode])]
    · have hfind' : t.find? (fun q => q.quizCode == code) = some quiz := by
        rw [List.find?_cons_of_neg _ (by simpa using hq)] at hfind
        exact hfind
      by_cases hqid : q.id = quiz.id
      · rw [if_pos (by simp [hqid, hni])]
        rw [List.find?_cons_of_pos _ (by simp [hnc, hquizcode])]
      · rw [if_neg (by simp [hqid, hni])]
        rw [List.find?_cons_of_neg _ (by simpa using hq)]
        exact ih hfind' (fun q' hq' hc => hcode q' (List.mem_cons_of_mem _ hq') hc)

lemma getQuizQuestions_resetQuizProgress (db : DB) (i j : Nat) :
    (db.resetQuizProgress i).getQuizQuestions j = db.getQuizQuestions j := rfl

lemma getQuizQuestions_updateQuiz (db : DB) (q : Quiz) (j : Nat) :
    (db.updateQuiz q).getQuizQuestions j = db.getQuizQuestions j := rfl

lemma resetQuizProgress_progress_zero (db : DB) (quizID : Nat) :
    ∀ p ∈ (db.resetQuizProgress quizID).progress, p.quizID = quizID → p.nextIndex = 0 := by
  intro p hp hq
  obtain ⟨p0, _, rfl⟩ := List.mem_map.mp hp
  by_cases h : p0.quizID = quizID
  · simp [h]
  · simp only [beq_iff_eq, if_neg h] at hq ⊢
    exact absurd hq h

/-- C5: for a quiz with at least one question, StartQuiz resets every
progress row of the quiz to index 0, marks the quiz active, and
broadcasts question[0] to the whole room; running it again on the
resulting store (a repeated start after completion) resets to 0 and
rebroadcasts question[0] the same way. -/
theorem c5_startQuiz_resets_and_broadcasts (db : DB) (quizCode : String)
    (userID : Nat) (quiz : Quiz)
    (hfind : db.getQuizByCode quizCode = .ok quiz)
    (hcode : ∀ q ∈ db.quizzes, q.quizCode = quizCode → q.id = quiz.id)
    (hne : (db.getQuizQuestions quiz.id).length ≠ 0) :
    ∃ db1, startQuiz db quizCode userID = .ok (db1,
        [OutMsg.broadcast quizCode "question"
          (WireData.questionMsg
            (((db.getQuizQuestions quiz.id).get ⟨0, Nat.pos_of_ne_zero hne⟩).toDTO true) 0
            (db.getQuizQuestions quiz.id).length quiz.id)]) ∧
      (∀ p ∈ db1.progress, p.quizID = quiz.id → p.nextIndex = 0) ∧
      (∀ q ∈ db1.quizzes, q.id = quiz.id → q.isActive = true) ∧
      ∃ db2, startQuiz db1 quizCode userID = .ok (db2,
          [OutMsg.broadcast quizCode "question"
            (WireData.questionMsg
              (((db.getQuizQuestions quiz.id).get ⟨0, Nat.pos_of_ne_zero hne⟩).toDTO true) 0
              (db.getQuizQuestions quiz.id).length quiz.id)]) ∧
        (∀ p ∈ db2.progress, p.quizID = quiz.id → p.nextIndex = 0) := by
  classical
  set quizA : Quiz := { quiz with isActive := true } with hquizA
  have hfind2 : ((db.resetQuizProgress quiz.id).updateQuiz quizA).getQuizByCode quizCode
      = .ok quizA := by
    rw [getQuizByCode_ok_iff]
    exact find?_map_saveQuiz db.quizzes quiz quizA quizCode rfl rfl
      ((getQuizByCode_ok_iff db quizCode quiz).mp hfind) hcode
  refine ⟨(db.resetQuizProgress quiz.id).updateQuiz quizA, ?_, ?_, ?_, ?_⟩
  · simp only [startQuiz, hfind, getQuizQuestions_resetQuizProgress,
      getQuizQuestions_updateQuiz]
    rw [dif_neg hne]
  · intro p hp hq
    exact resetQuizProgress_progress_zero db quiz.id p hp hq
  · intro q hq hid
    obtain ⟨q0, _, rfl⟩ := List.mem_map.mp hq
    by_cases h : q0.id = quiz.id
    · simp [h]
    · simp only [beq_iff_eq, if_neg h] at hid ⊢
      exact absurd hid h
  · refine ⟨((db.resetQuizProgress quiz.id).updateQuiz quizA).resetQuizProgress quiz.id
      |>.updateQuiz { quizA with isActive := true }, ?_, ?_⟩
    · simp only [startQuiz, hfind2, getQuizQuestions_resetQuizProgress,
        getQuizQuestions_updateQuiz]
      rw [dif_neg hne]
    · intro p hp hq
      exact resetQuizProgress_progress_zero _ quiz.id p hp hq

/-- Witness for C5: a concrete one-question store; both the first and the
repeated start reset progress and broadcast question[0]. -/
theorem c5_startQuiz_witness :
    ∃ db1, startQuiz raceDB "Q" 100 = .ok (db1,
        [OutMsg.broadcast "Q" "question"
          (WireData.questionMsg
            (((raceDB.getQuizQuestions 1).get ⟨0, by decide⟩).toDTO true) 0
            (raceDB.getQuizQuestions 1).length 1)]) ∧
      (∀ p ∈ db1.progress, p.quizID = 1 → p.nextIndex = 0) ∧
      (∀ q ∈ db1.quizzes, q.id = 1 → q.isActive = true) ∧
      ∃ db2, startQuiz db1 "Q" 100 = .ok (db2,
          [OutMsg.broadcast "Q" "question"
            (WireData.questionMsg
              (((raceDB.getQuizQuestions 1).get ⟨0, by decide⟩).toDTO true) 0
              (raceDB.getQuizQuestions 1).length 1)]) ∧
        (∀ p ∈ db2.progress, p.quizID = 1 → p.nextIndex = 0) :=
  c5_startQuiz_resets_and_broadcasts raceDB "Q" 100 ⟨1, 100, "Q", true⟩
    rfl (by decide) (by decide)

/-- C10: a first GetUserQuestionIndex lookup for a (user, quiz) pair with
no progress row returns index 0 with no error and persists a row with
NextIndex 0 (so an immediate re-read also yields 0); and ProcessAnswer
treats a failing lookup as index 0 and still spawns the personal advance
at index 1 for the user. -/
theorem c10_progress_default_bootstrap :
    (∀ (db : DB) (userID quizID : Nat),
        db.progress.find? (fun p => p.userID == userID && p.quizID == quizID) = none →
        db.progressCreateFails = false →
        (db.getUserQuestionIndex userID quizID).1 = .ok 0 ∧
        (db.getUserQuestionIndex userID quizID).2.progress
          = db.progress ++ [⟨userID, quizID, 0⟩] ∧
        ((db.getUserQuestionIndex userID quizID).2.getUserQuestionIndex userID quizID).1
          = .ok 0) ∧
    (∀ (db : DB) (resp : UserQuizResponse) (quiz : Quiz) (question : Question),
        db.getQuizByID resp.quizID = .ok quiz →
        quiz.creatorID ≠ resp.userID →
        db.getQuestion resp.questionID = .ok question →
        (∃ e, ((db.saveResponse
            { resp with score := calculateScore resp.answer question.correctAnswer resp.timeSpent }).getUserQuestionIndex
            resp.userID quiz.id).1 = .error e) →
        (processAnswer db resp).2.2 = [⟨resp.userID, quiz.quizCode, 1⟩]) := by
  constructor
  · intro db userID quizID hnone hflag
    have hstep : db.getUserQuestionIndex userID quizID =
        (.ok 0, { db with progress := db.progress ++ [⟨userID, quizID, 0⟩] }) := by
      unfold DB.getUserQuestionIndex
      rw [hnone, hflag]
      simp
    refine ⟨by rw [hstep], by rw [hstep], ?_⟩
    rw [hstep]
    unfold DB.getUserQuestionIndex
    simp only [List.find?_append, hnone, Option.none_orElse]
    simp [List.find?_cons]
  · intro db resp quiz question hquiz hnothost hquestion hfail
    obtain ⟨e, he⟩ := hfail
    have hbeq : (quiz.creatorID == resp.userID) = false := by
      simpa using hnothost
    simp only [processAnswer, hquiz, hquestion, hbeq, Bool.false_eq_true, if_false, he]
    norm_num

/-- Witness for C10: a fresh pair bootstraps a stored 0 and reads 0, and
with the progress-row create faulted ProcessAnswer still spawns the
advance at index 1. -/
theorem c10_progress_default_bootstrap_witness :
    ((raceDB.getUserQuestionIndex 3 1).1 = .ok 0 ∧
      (raceDB.getUserQuestionIndex 3 1).2.progress
        = raceDB.progress ++ [⟨3, 1, 0⟩] ∧
      ((raceDB.getUserQuestionIndex 3 1).2.getUserQuestionIndex 3 1).1 = .ok 0) ∧
    (processAnswer { raceDB with progress := [], progressCreateFails := true }
        ⟨2, 1, 10, "2", 0, 0⟩).2.2 = [⟨2, "Q", 1⟩] := by
  constructor
  · exact c10_progress_default_bootstrap.1 raceDB 3 1 (by decide) rfl
  · exact c10_progress_default_bootstrap.2
      { raceDB with progress := [], progressCreateFails := true }
      ⟨2, 1, 10, "2", 0, 0⟩ ⟨1, 100, "Q", true⟩ ⟨10, 1, "one plus one?", [], "2", 30⟩
      rfl (by decide) rfl ⟨"create failed", rfl⟩

/-! ## Connection registry / hub (backend/pkg/websocket/hub.go)

Go maps become association lists (`setKey` overwrites or inserts, and
`List.lookup` reads the first hit, matching map semantics); the set of
clients in a room becomes a duplicate-free id list. A client's Go
pointer identity becomes a numeric `id`; the state of each live client
object lives in `clientStates`. Channel operations are explicit: a send
on a full bounded queue takes the `select` default branch, and closing
an already-closed channel is a runtime panic, recorded in `panicked`
(the Go code after the panic point does not run). -/

/-- Overwrite-or-insert on an association list (Go map assignment). -/
def setKey {κ ν : Type} [BEq κ] (l : List (κ × ν)) (k : κ) (v : ν) : List (κ × ν) :=
  (k, v) :: l.filter (fun p => !(p.fst == k))

/-- Remove a key (Go `delete`). -/
def delKey {κ ν : Type} [BEq κ] (l : List (κ × ν)) (k : κ) : List (κ × ν) :=
  l.filter (fun p => !(p.fst == k))

/-- websocket.Client: transport handle, room code, announced identity,
role flag, and the bounded outbound channel (queue + capacity + closed
flags for `send` and `done`). -/
structure Client where
  id : Nat
  quizCode : String
  user : Option UserInfo
  isHost : Bool
  sendQueue : List (String × WireData)
  sendCap : Nat
  sendClosed : Bool
  doneClosed : Bool
deriving Repr, DecidableEq

/-- websocket.Hub: membership and identity maps, plus the observables
the claims inspect — participant-removal calls issued to the store and
whether a runtime panic occurred. -/
structure Hub where
  clientStates : List Client
  clients : List Nat
  quizRooms : List (String × List Nat)
  participants : List (String × Int)
  clientsByUser : List (Nat × Nat)
  hosts : List (Nat × Nat)
  dbRemovals : List (String × Nat)
  panicked : Bool
deriving Repr, DecidableEq

/-- Dereference a client id (a Go pointer dereference). -/
def Hub.getClient (h : Hub) (cid : Nat) : Option Client :=
  h.clientStates.find? (fun c => c.id == cid)

/-- Mutate the client object with the given id. -/
def Hub.setClient (h : Hub) (c : Client) : Hub :=
  { h with clientStates := h.clientStates.map (fun c0 => if c0.id == c.id then c else c0) }

/-- The ids currently in a room (empty when the room does not exist). -/
def Hub.roomMembers (h : Hub) (quizCode : String) : List Nat :=
  (h.quizRooms.lookup quizCode).getD []

/-- The quantity §8 of the spec compares the count against: the number
of connections in the room that are not host connections. -/
def Hub.nonHostConnections (h : Hub) (quizCode : String) : Nat :=
  ((h.roomMembers quizCode).filter (fun mid =>
    match h.getClient mid with
    | some c => !c.isHost
    | none => false)).length

/-- Hub.SendParticipantList: room absent is a no-op; otherwise broadcast
the list of announced non-host users (split by the `isHost` flag, the
last host seen winning), plus a participant_update with the same count. -/
def Hub.sendParticipantList (h : Hub) (quizCode : String) : List OutMsg :=
  match h.quizRooms.lookup quizCode with
  | none => []
  | some room =>
    let ps := room.filterMap (fun mid =>
      match h.getClient mid with
      | some c => match c.user with
        | some u => if c.isHost then none else some u
        | none => none
      | none => none)
    let hostInfo := (room.filterMap (fun mid =>
      match h.getClient mid with
      | some c => if c.isHost then c.user else none
      | none => none)).getLast?
    [OutMsg.broadcast quizCode "participant_list"
        (WireData.participantListMsg ps ps.length hostInfo),
      OutMsg.broadcast quizCode "participant_update" (WireData.countMsg ps.length)]

/-- Hub.RegisterClient (the direct, lock-guarded registration path):
create the room if needed, add the client to the room and the global
set, recompute the stored count as the number of room members that have
announced a user not present in the hosts map, and asynchronously
announce the count and the participant list. -/
def Hub.registerClient (h : Hub) (cid : Nat) (quizCode : String) : Hub × List OutMsg :=
  let room1 :=
    let room0 := h.roomMembers quizCode
    if room0.contains cid then room0 else room0 ++ [cid]
  let clients1 := if h.clients.contains cid then h.clients else h.clients ++ [cid]
  let count := (room1.filter (fun mid =>
    match h.getClient mid with
    | some c => match c.user with
      | some u => !(h.hosts.any (fun p => p.fst == u.userID))
      | none => false
    | none => false)).length
  let h1 := { h with
    quizRooms := setKey h.quizRooms quizCode room1
    clients := clients1
    participants := setKey h.participants quizCode (count : Int) }
  (h1, OutMsg.broadcast quizCode "participant_update" (WireData.countMsg count)
    :: h1.sendParticipantList quizCode)

/-- The register case of Hub.Run (the channel-driven registration path):
add to the global set and the room, increment the stored count by one
for any client — host or not — and announce that count. -/
def Hub.runRegister (h : Hub) (cid : Nat) : Hub × List OutMsg :=
  match h.getClient cid with
  | none => (h, [])
  | some c =>
    let clients1 := if h.clients.contains cid then h.clients else h.clients ++ [cid]
    if c.quizCode = "" then ({ h with clients := clients1 }, [])
    else
      let room1 :=
        let room0 := h.roomMembers c.quizCode
        if room0.contains cid then room0 else room0 ++ [cid]
      let count := (h.participants.lookup c.quizCode).getD 0 + 1
      ({ h with
          clients := clients1
          quizRooms := setKey h.quizRooms c.quizCode room1
          participants := setKey h.participants c.quizCode count },
        [OutMsg.broadcast c.quizCode "participant_update" (WireData.countMsg count)])

/-- The unregister case of Hub.Run (the channel-driven teardown path):
guarded by membership in the global client set, so a repeat unregister
of a removed connection is a no-op; removes the client from its room,
decrements the stored count, announces it, and closes both channels. -/
def Hub.runUnregister (h : Hub) (cid : Nat) : Hub × List OutMsg :=
  match h.getClient cid with
  | none => (h, [])
  | some c =>
    if h.clients.contains cid then
      let roomStep :
          (List (String × List Nat)) × (List (String × Int)) × List OutMsg :=
        if c.quizCode ≠ "" then
          match h.quizRooms.lookup c.quizCode with
          | some room =>
            let count := (h.participants.lookup c.quizCode).getD 0 - 1
            (setKey h.quizRooms c.quizCode (room.erase cid),
              setKey h.participants c.quizCode count,
              [OutMsg.broadcast c.quizCode "participant_update" (WireData.countMsg count)])
          | none => (h.quizRooms, h.participants, [])
        else (h.quizRooms, h.participants, [])
      let h1 := { h with
        quizRooms := roomStep.1
        participants := roomStep.2.1
        clients := h.clients.erase cid }
      if c.sendClosed || c.doneClosed then
        ({ h1 with panicked := true }, roomStep.2.2)
      else
        (h1.setClient { c with sendClosed := true, doneClosed := true }, roomStep.2.2)
    else (h, [])

/-- Hub.UnregisterClient (the direct method): keyed on the ROOM existing
rather than on the client still being present. Removes the client from
room and identity maps, recomputes the count from the remaining room,
issues the participant-removal store call for any non-host with a user —
then closes the channels, a panic point when they are already closed
(the trailing broadcasts do not run in that case). -/
def Hub.unregisterClientMethod (h : Hub) (cid : Nat) : Hub × List OutMsg :=
  match h.getClient cid with
  | none => (h, [])
  | some c =>
    match h.quizRooms.lookup c.quizCode with
    | none => (h, [])
    | some room =>
      let room1 := room.erase cid
      let byUser1 := match c.user with
        | some u => delKey h.clientsByUser u.userID
        | none => h.clientsByUser
      let hosts1 := match c.user with
        | some u => delKey h.hosts u.userID
        | none => h.hosts
      let ps := room1.filterMap (fun mid =>
        match h.getClient mid with
        | some c0 => match c0.user with
          | some u => if c0.isHost then none else some u
          | none => none
        | none => none)
      let hostInfo := (room1.filterMap (fun mid =>
        match h.getClient mid with
        | some c0 => if c0.isHost then c0.user else none
        | none => none)).getLast?
      let removals := match c.user with
        | some u => if c.isHost then [] else [(c.quizCode, u.userID)]
        | none => []
      let h1 := { h with
        quizRooms := setKey h.quizRooms c.quizCode room1
        clients := h.clients.erase cid
        clientsByUser := byUser1
        hosts := hosts1
        participants := setKey h.participants c.quizCode (ps.length : Int)
        dbRemovals := h.dbRemovals ++ removals }
      if c.sendClosed then
        ({ h1 with panicked := true }, [])
      else
        let h2 := h1.setClient { c with sendClosed := true, doneClosed := true }
        (h2, [OutMsg.broadcast c.quizCode "participant_list"
            (WireData.participantListMsg ps ps.length hostInfo),
          OutMsg.broadcast c.quizCode "participant_update"
            (WireData.countMsg ps.length)])

/-- The fan-out loop of Hub.BroadcastToQuiz over a member list: enqueue
on each client whose bounded queue has space; a full queue takes the
select default and requests the client's unregistration instead (a send
on a closed channel panics, is recovered, and likewise requests
unregistration). Returns the hub with the grown queues and the
unregister requests, in iteration order. -/
def Hub.broadcastLoop (h : Hub) (msg : String × WireData) :
    List Nat → Hub × List Nat
  | [] => (h, [])
  | mid :: rest =>
    match h.getClient mid with
    | none => h.broadcastLoop msg rest
    | some c =>
      if c.sendClosed then
        let r := h.broadcastLoop msg rest
        (r.1, mid :: r.2)
      else if c.sendQueue.length < c.sendCap then
        (h.setClient { c with sendQueue := c.sendQueue ++ [msg] }).broadcastLoop msg rest
      else
        let r := h.broadcastLoop msg rest
        (r.1, mid :: r.2)

/-- Hub.BroadcastToQuiz: fan one marshaled message out to every client
of the room. -/
def Hub.broadcastToQuiz (h : Hub) (quizCode : String) (msg : String × WireData) :
    Hub × List Nat :=
  h.broadcastLoop msg (h.roomMembers quizCode)

lemma getClient_id (h : Hub) (cid : Nat) (c : Client)
    (hc : h.getClient cid = some c) : c.id = cid := by
  have := List.find?_some hc
  simpa using this

lemma find?_map_replace (l : List Client) (c : Client) (cid : Nat) (hne : cid ≠ c.id) :
    (l.map (fun c0 => if c0.id == c.id then c else c0)).find? (fun c0 => c0.id == cid)
      = l.find? (fun c0 => c0.id == cid) := by
  induction l with
  | nil => rfl
  | cons a t ih =>
    rw [List.map_cons]
    by_cases ha : a.id = c.id
    · rw [if_pos (by simpa using ha)]
      rw [List.find?_cons_of_neg _ (by simpa using fun hcc => hne hcc.symm),
        List.find?_cons_of_neg _ (by simp [ha]; exact fun hcc => hne hcc.symm)]
      exact ih
    · rw [if_neg (by simpa using ha)]
      by_cases hacid : a.id = cid
      · rw [List.find?_cons_of_pos _ (by simpa using hacid),
          List.find?_cons_of_pos _ (by simpa using hacid)]
      · rw [List.find?_cons_of_neg _ (by simpa using hacid),
          List.find?_cons_of_neg _ (by simpa using hacid)]
        exact ih

lemma find?_map_replace_self (l : List Client) (c : Client)
    (hex : (l.find? (fun c0 => c0.id == c.id)).isSome) :
    (l.map (fun c0 => if c0.id == c.id then c else c0)).find? (fun c0 => c0.id == c.id)
      = some c := by
  induction l with
  | nil => simp at hex
  | cons a t ih =>
    rw [List.map_cons]
    by_cases ha : a.id = c.id
    · rw [if_pos (by simpa using ha)]
      rw [List.find?_cons_of_pos _ (by simp)]
    · rw [if_neg (by simpa using ha)]
      rw [List.find?_cons_of_neg _ (by simpa using ha)]
      rw [List.find?_cons_of_neg _ (by simpa using ha)] at hex
      exact ih hex

lemma getClient_setClient_other (h : Hub) (c : Client) (cid : Nat) (hne : cid ≠ c.id) :
    (h.setClient c).getClient cid = h.getClient cid :=
  find?_map_replace h.clientStates c cid hne

lemma getClient_setClient_self (h : Hub) (c : Client)
    (hex : (h.getClient c.id).isSome) :
    (h.setClient c).getClient c.id = some c :=
  find?_map_replace_self h.clientStates c hex

/-- C6 (counterexample): a single registered non-host participant is
unregistered twice through the direct UnregisterClient method. Because
the method is keyed on the room existing — not on the client still being
present — the second call issues a second participant-removal store call
and then panics closing the already-closed send channel, refuting the
claimed idempotence. -/
theorem c6_double_unregister_counterexample :
    (((Hub.unregisterClientMethod
        ⟨[⟨0, "R", some ⟨5, "eve", "eve at example dot com"⟩, false, [], 256, false, false⟩],
          [0], [("R", [0])], [("R", 1)], [(5, 0)], [], [], false⟩ 0).1.unregisterClientMethod
        0).1.dbRemovals = [("R", 5), ("R", 5)]) ∧
    (((Hub.unregisterClientMethod
        ⟨[⟨0, "R", some ⟨5, "eve", "eve at example dot com"⟩, false, [], 256, false, false⟩],
          [0], [("R", [0])], [("R", 1)], [(5, 0)], [], [], false⟩ 0).1.unregisterClientMethod
        0).1.panicked = true) := by decide

/-- C6 (amended): the channel-driven unregister path that the running
system uses is idempotent — a repeat unregister of a connection no
longer in the global client set is a complete no-op: no panic, hub state
unchanged (in particular no store-removal call), nothing announced. -/
theorem c6_run_unregister_idempotent (h : Hub) (cid : Nat)
    (habsent : h.clients.contains cid = false) :
    h.runUnregister cid = (h, []) := by
  unfold Hub.runUnregister
  cases hc : h.getClient cid with
  | none => rfl
  | some c =>
    have h' : cid ∉ h.clients := by simpa using habsent
    simp [h']

/-- Witness for the amended C6: after a first channel unregister of the
only client, a second one is a no-op. -/
theorem c6_run_unregister_idempotent_witness :
    ((Hub.runUnregister
        ⟨[⟨0, "R", some ⟨5, "eve", "eve at example dot com"⟩, false, [], 256, false, false⟩],
          [0], [("R", [0])], [("R", 1)], [(5, 0)], [], [], false⟩ 0).1.runUnregister 0)
      = ((Hub.runUnregister
        ⟨[⟨0, "R", some ⟨5, "eve", "eve at example dot com"⟩, false, [], 256, false, false⟩],
          [0], [("R", [0])], [("R", 1)], [(5, 0)], [], [], false⟩ 0).1, []) :=
  c6_run_unregister_idempotent _ 0 (by decide)

/-- The membership test RegisterClient counts by: the connection has
announced a user and that user is not registered in the hosts map. -/
def Hub.isAnnouncedNonHost (h : Hub) (mid : Nat) : Bool :=
  match h.getClient mid with
  | some c => match c.user with
    | some u => !(h.hosts.any (fun p => p.fst == u.userID))
    | none => false
  | none => false

lemma lookup_setKey_self {ν : Type} (l : List (String × ν)) (k : String) (v : ν) :
    (setKey l k v).lookup k = some v := by
  simp [setKey, List.lookup]

/-- C7 (counterexample): a host connection (announced user 7, registered
in the hosts map) goes through the channel-driven registration path of
Hub.Run. The stored and announced participant count becomes 1 although
the room holds zero non-host connections, so the count neither equals
the number of non-host connections nor excludes the host on this path. -/
theorem c7_channel_register_counts_host :
    (((Hub.runRegister
        ⟨[⟨0, "R", some ⟨7, "hostess", ""⟩, true, [], 256, false, false⟩],
          [], [], [], [], [(7, 0)], [], false⟩ 0).1.participants.lookup "R").getD 0 = 1) ∧
    ((Hub.runRegister
        ⟨[⟨0, "R", some ⟨7, "hostess", ""⟩, true, [], 256, false, false⟩],
          [], [], [], [], [(7, 0)], [], false⟩ 0).1.nonHostConnections "R" = 0) ∧
    ((Hub.runRegister
        ⟨[⟨0, "R", some ⟨7, "hostess", ""⟩, true, [], 256, false, false⟩],
          [], [], [], [], [(7, 0)], [], false⟩ 0).2
      = [OutMsg.broadcast "R" "participant_update" (WireData.countMsg 1)]) ∧
    (1 : Int) ≠ (0 : Nat) := by decide

/-- C7 (amended): on the direct RegisterClient path the stored count and
the announced participant_update payload agree and equal the number of
room members that have announced a user not registered in the hosts map
— connections that have not yet announced a user are excluded, and a
member whose announced user is in the hosts map is never counted. The
channel-driven path does not maintain this (see the counterexample). -/
theorem c7_register_path_count (h : Hub) (cid : Nat) (quizCode : String) :
    ∃ n : Nat,
      (h.registerClient cid quizCode).1.participants.lookup quizCode = some (n : Int) ∧
      (h.registerClient cid quizCode).2.head?
        = some (OutMsg.broadcast quizCode "participant_update"
            (WireData.countMsg (n : Int))) ∧
      n = (((h.registerClient cid quizCode).1.roomMembers quizCode).filter
            h.isAnnouncedNonHost).length ∧
      (∀ mid c u, h.getClient mid = some c → c.user = some u →
        u.userID ∈ h.hosts.map Prod.fst → h.isAnnouncedNonHost mid = false) ∧
      (∀ mid c, h.getClient mid = some c → c.user = none →
        h.isAnnouncedNonHost mid = false) := by
  refine ⟨((if (h.roomMembers quizCode).contains cid then h.roomMembers quizCode
      else h.roomMembers quizCode ++ [cid]).filter h.isAnnouncedNonHost).length,
    ?_, ?_, ?_, ?_, ?_⟩
  · show (setKey h.participants quizCode _).lookup quizCode = some _
    rw [lookup_setKey_self]
    rfl
  · rfl
  · show _ = ((((setKey h.quizRooms quizCode _).lookup quizCode).getD []).filter _).length
    rw [lookup_setKey_self]
    rfl
  · intro mid c u hc hu hhost
    simp only [Hub.isAnnouncedNonHost, hc, hu, Bool.not_eq_false', Bool.not_eq_true',
      List.any_eq_false, Bool.not_eq_true]
    obtain ⟨p, hp, hpfst⟩ := List.mem_map.mp hhost
    exact List.any_eq_true.mpr ⟨p, hp, by simp [hpfst]⟩
  · intro mid c hc hu
    simp only [Hub.isAnnouncedNonHost, hc, hu]

/-- Witness for the amended C7: the count computation at a concrete hub
holding one announced participant, one announced host, and one
not-yet-announced connection. -/
theorem c7_register_path_count_witness :
    ∃ n : Nat,
      (Hub.registerClient
          ⟨[⟨0, "R", some ⟨7, "hostess", ""⟩, true, [], 256, false, false⟩,
            ⟨1, "R", some ⟨5, "eve", ""⟩, false, [], 256, false, false⟩,
            ⟨2, "R", none, false, [], 256, false, false⟩],
            [0, 1], [("R", [0, 1])], [("R", 1)], [(5, 1)], [(7, 0)], [], false⟩
          2 "R").1.participants.lookup "R" = some (n : Int) ∧
      (Hub.registerClient
          ⟨[⟨0, "R", some ⟨7, "hostess", ""⟩, true, [], 256, false, false⟩,
            ⟨1, "R", some ⟨5, "eve", ""⟩, false, [], 256, false, false⟩,
            ⟨2, "R", none, false, [], 256, false, false⟩],
            [0, 1], [("R", [0, 1])], [("R", 1)], [(5, 1)], [(7, 0)], [], false⟩
          2 "R").2.head?
        = some (OutMsg.broadcast "R" "participant_update"
            (WireData.countMsg (n : Int))) ∧
      n = ((Hub.roomMembers (Hub.registerClient
          ⟨[⟨0, "R", some ⟨7, "hostess", ""⟩, true, [], 256, false, false⟩,
            ⟨1, "R", some ⟨5, "eve", ""⟩, false, [], 256, false, false⟩,
            ⟨2, "R", none, false, [], 256, false, false⟩],
            [0, 1], [("R", [0, 1])], [("R", 1)], [(5, 1)], [(7, 0)], [], false⟩
          2 "R").1 "R").filter (Hub.isAnnouncedNonHost
          ⟨[⟨0, "R", some ⟨7, "hostess", ""⟩, true, [], 256, false, false⟩,
            ⟨1, "R", some ⟨5, "eve", ""⟩, false, [], 256, false, false⟩,
            ⟨2, "R", none, false, [], 256, false, false⟩],
            [0, 1], [("R", [0, 1])], [("R", 1)], [(5, 1)], [(7, 0)], [], false⟩)).length ∧
      (∀ mid c u, Hub.getClient
          ⟨[⟨0, "R", some ⟨7, "hostess", ""⟩, true, [], 256, false, false⟩,
            ⟨1, "R", some ⟨5, "eve", ""⟩, false, [], 256, false, false⟩,
            ⟨2, "R", none, false, [], 256, false, false⟩],
            [0, 1], [("R", [0, 1])], [("R", 1)], [(5, 1)], [(7, 0)], [], false⟩ mid = some c →
          c.user = some u →
        u.userID ∈ List.map Prod.fst [(7, 0)] → Hub.isAnnouncedNonHost
          ⟨[⟨0, "R", some ⟨7, "hostess", ""⟩, true, [], 256, false, false⟩,
            ⟨1, "R", some ⟨5, "eve", ""⟩, false, [], 256, false, false⟩,
            ⟨2, "R", none, false, [], 256, false, false⟩],
            [0, 1], [("R", [0, 1])], [("R", 1)], [(5, 1)], [(7, 0)], [], false⟩ mid = false) ∧
      (∀ mid c, Hub.getClient
          ⟨[⟨0, "R", some ⟨7, "hostess", ""⟩, true, [], 256, false, false⟩,
            ⟨1, "R", some ⟨5, "eve", ""⟩, false, [], 256, false, false⟩,
            ⟨2, "R", none, false, [], 256, false, false⟩],
            [0, 1], [("R", [0, 1])], [("R", 1)], [(5, 1)], [(7, 0)], [], false⟩ mid = some c →
          c.user = none →
        Hub.isAnnouncedNonHost
          ⟨[⟨0, "R", some ⟨7, "hostess", ""⟩, true, [], 256, false, false⟩,
            ⟨1, "R", some ⟨5, "eve", ""⟩, false, [], 256, false, false⟩,
            ⟨2, "R", none, false, [], 256, false, false⟩],
            [0, 1], [("R", [0, 1])], [("R", 1)], [(5, 1)], [(7, 0)], [], false⟩ mid = false) :=
  c7_register_path_count
    ⟨[⟨0, "R", some ⟨7, "hostess", ""⟩, true, [], 256, false, false⟩,
      ⟨1, "R", some ⟨5, "eve", ""⟩, false, [], 256, false, false⟩,
      ⟨2, "R", none, false, [], 256, false, false⟩],
      [0, 1], [("R", [0, 1])], [("R", 1)], [(5, 1)], [(7, 0)], [], false⟩ 2 "R"

lemma broadcastLoop_fields (msg : String × WireData) (l : List Nat) :
    ∀ h : Hub,
      (h.broadcastLoop msg l).1.clients = h.clients ∧
      (h.broadcastLoop msg l).1.quizRooms = h.quizRooms ∧
      (h.broadcastLoop msg l).1.participants = h.participants ∧
      (h.broadcastLoop msg l).1.dbRemovals = h.dbRemovals ∧
      (h.broadcastLoop msg l).1.panicked = h.panicked := by
  induction l with
  | nil => exact fun h => ⟨rfl, rfl, rfl, rfl, rfl⟩
  | cons a rest ih =>
    intro h
    cases hc : h.getClient a with
    | none =>
      simp only [Hub.broadcastLoop, hc]
      exact ih h
    | some c =>
      simp only [Hub.broadcastLoop, hc]
      by_cases h1 : c.sendClosed = true
      · rw [if_pos h1]
        exact ih h
      · rw [if_neg h1]
        by_cases h2 : c.sendQueue.length < c.sendCap
        · rw [if_pos h2]
          exact ih _
        · rw [if_neg h2]
          exact ih h

lemma broadcastLoop_getClient_not_mem (msg : String × WireData) (l : List Nat) :
    ∀ (h : Hub) (mid : Nat), mid ∉ l →
      (h.broadcastLoop msg l).1.getClient mid = h.getClient mid := by
  induction l with
  | nil => exact fun h mid _ => rfl
  | cons a rest ih =>
    intro h mid hnm
    have hna : a ≠ mid := fun e => hnm (e ▸ List.mem_cons_self a rest)
    have hnr : mid ∉ rest := fun hm => hnm (List.mem_cons_of_mem a hm)
    cases hc : h.getClient a with
    | none =>
      simp only [Hub.broadcastLoop, hc]
      exact ih h mid hnr
    | some c =>
      simp only [Hub.broadcastLoop, hc]
      have hcid : c.id = a := getClient_id h a c hc
      by_cases h1 : c.sendClosed = true
      · rw [if_pos h1]
        exact ih h mid hnr
      · rw [if_neg h1]
        by_cases h2 : c.sendQueue.length < c.sendCap
        · rw [if_pos h2]
          rw [ih _ mid hnr]
          exact getClient_setClient_other h _ mid (by simp [hcid]; exact fun e => hna e.symm)
        · rw [if_neg h2]
          exact ih h mid hnr

lemma broadcastLoop_full_mem (msg : String × WireData) (l : List Nat) :
    ∀ (h : Hub) (mid : Nat) (c : Client), l.Nodup → mid ∈ l →
      h.getClient mid = some c → c.sendClosed = false →
      c.sendCap ≤ c.sendQueue.length →
      mid ∈ (h.broadcastLoop msg l).2 ∧
      (h.broadcastLoop msg l).1.getClient mid = some c := by
  induction l with
  | nil => intro h mid c _ hm; cases hm
  | cons a rest ih =>
    intro h mid c hnd hm hc hopen hfull
    obtain ⟨hnar, hndr⟩ := List.nodup_cons.mp hnd
    rcases List.mem_cons.mp hm with rfl | hmr
    · simp only [Hub.broadcastLoop, hc]
      rw [if_neg (by simp [hopen]), if_neg (by omega)]
      exact ⟨List.mem_cons_self _ _,
        by rw [broadcastLoop_getClient_not_mem msg rest h mid hnar]; exact hc⟩
    · have hna : a ≠ mid := fun e => hnar (e ▸ hmr)
      cases hca : h.getClient a with
      | none =>
        simp only [Hub.broadcastLoop, hca]
        exact ih h mid c hndr hmr hc hopen hfull
      | some ca =>
        simp only [Hub.broadcastLoop, hca]
        have hcaid : ca.id = a := getClient_id h a ca hca
        by_cases h1 : ca.sendClosed = true
        · rw [if_pos h1]
          obtain ⟨hm1, hg1⟩ := ih h mid c hndr hmr hc hopen hfull
          exact ⟨List.mem_cons_of_mem a hm1, hg1⟩
        · rw [if_neg h1]
          by_cases h2 : ca.sendQueue.length < ca.sendCap
          · rw [if_pos h2]
            refine ih _ mid c hndr hmr ?_ hopen hfull
            rw [getClient_setClient_other h _ mid (by simp [hcaid]; exact fun e => hna e.symm)]
            exact hc
          · rw [if_neg h2]
            obtain ⟨hm1, hg1⟩ := ih h mid c hndr hmr hc hopen hfull
            exact ⟨List.mem_cons_of_mem a hm1, hg1⟩

lemma broadcastLoop_space_enqueued (msg : String × WireData) (l : List Nat) :
    ∀ (h : Hub) (mid : Nat) (c : Client), l.Nodup → mid ∈ l →
      h.getClient mid = some c → c.sendClosed = false →
      c.sendQueue.length < c.sendCap →
      (h.broadcastLoop msg l).1.getClient mid
        = some { c with sendQueue := c.sendQueue ++ [msg] } := by
  induction l with
  | nil => intro h mid c _ hm; cases hm
  | cons a rest ih =>
    intro h mid c hnd hm hc hopen hspace
    obtain ⟨hnar, hndr⟩ := List.nodup_cons.mp hnd
    have hcid : c.id = mid := getClient_id h mid c hc
    rcases List.mem_cons.mp hm with rfl | hmr
    · simp only [Hub.broadcastLoop, hc]
      rw [if_neg (by simp [hopen]), if_pos hspace]
      rw [broadcastLoop_getClient_not_mem msg rest _ mid hnar]
      have hex : (h.getClient ({ c with sendQueue := c.sendQueue ++ [msg] } : Client).id).isSome := by
        show (h.getClient c.id).isSome
        rw [hcid, hc]
        rfl
      have := getClient_setClient_self h { c with sendQueue := c.sendQueue ++ [msg] } hex
      simpa [hcid] using this
    · have hna : a ≠ mid := fun e => hnar (e ▸ hmr)
      cases hca : h.getClient a with
      | none =>
        simp only [Hub.broadcastLoop, hca]
        exact ih h mid c hndr hmr hc hopen hspace
      | some ca =>
        simp only [Hub.broadcastLoop, hca]
        have hcaid : ca.id = a := getClient_id h a ca hca
        by_cases h1 : ca.sendClosed = true
        · rw [if_pos h1]
          exact ih h mid c hndr hmr hc hopen hspace
        · rw [if_neg h1]
          by_cases h2 : ca.sendQueue.length < ca.sendCap
          · rw [if_pos h2]
            refine ih _ mid c hndr hmr ?_ hopen hspace
            rw [getClient_setClient_other h _ mid (by simp [hcaid]; exact fun e => hna e.symm)]
            exact hc
          · rw [if_neg h2]
            exact ih h mid c hndr hmr hc hopen hspace

lemma runUnregister_removes (h : Hub) (cid : Nat) (c : Client)
    (hc : h.getClient cid = some c)
    (hin : cid ∈ h.clients) (hcnd : h.clients.Nodup)
    (hne : c.quizCode ≠ "")
    (hroom : cid ∈ h.roomMembers c.quizCode)
    (hrnd : (h.roomMembers c.quizCode).Nodup)
    (hopen : c.sendClosed = false) (hdone : c.doneClosed = false) :
    cid ∉ (h.runUnregister cid).1.clients ∧
    cid ∉ (h.runUnregister cid).1.roomMembers c.quizCode ∧
    (h.runUnregister cid).1.panicked = h.panicked := by
  have hlook : ∃ room, h.quizRooms.lookup c.quizCode = some room ∧
      room = h.roomMembers c.quizCode := by
    unfold Hub.roomMembers at hroom ⊢
    cases hl : h.quizRooms.lookup c.quizCode with
    | none => rw [hl] at hroom; cases hroom
    | some room => exact ⟨room, rfl, rfl⟩
  obtain ⟨room, hl, hreq⟩ := hlook
  have hcontains : h.clients.contains cid = true := by
    simpa using hin
  simp only [Hub.runUnregister, hc, hcontains, if_pos, ne_eq, hne, not_false_iff,
    if_true, hl, hopen, hdone, Bool.false_eq_true, or_self, if_false]
  refine ⟨?_, ?_, rfl⟩
  · intro hmem
    have : cid ∈ h.clients.erase cid := by simpa [Hub.setClient] using hmem
    rw [List.Nodup.mem_erase_iff hcnd] at this
    exact this.1 rfl
  · intro hmem
    have : cid ∈ ((setKey h.quizRooms c.quizCode (room.erase cid)).lookup c.quizCode).getD [] := by
      simpa [Hub.roomMembers, Hub.setClient] using hmem
    rw [lookup_setKey_self] at this
    simp only [Option.getD_some] at this
    rw [hreq] at this
    rw [List.Nodup.mem_erase_iff hrnd] at this
    exact this.1 rfl

/-- C8: a broadcast to a room never blocks on a connection whose bounded
outbound queue is full: the fan-out completes, the full connection's
queue is left untouched and it is handed to the unregister path — which
removes it from the hub — while every other room member with queue space
has the message appended to its queue. -/
theorem c8_backpressure_drops_full_connection (h : Hub) (quizCode : String)
    (msg : String × WireData) (cid : Nat) (c : Client)
    (hrnd : (h.roomMembers quizCode).Nodup)
    (hmem : cid ∈ h.roomMembers quizCode)
    (hc : h.getClient cid = some c)
    (hqc : c.quizCode = quizCode) (hnqc : quizCode ≠ "")
    (hopen : c.sendClosed = false) (hdone : c.doneClosed = false)
    (hfull : c.sendCap ≤ c.sendQueue.length)
    (hin : cid ∈ h.clients) (hcnd : h.clients.Nodup) :
    cid ∈ (h.broadcastToQuiz quizCode msg).2 ∧
    (h.broadcastToQuiz quizCode msg).1.getClient cid = some c ∧
    (∀ mid' c', mid' ∈ h.roomMembers quizCode → mid' ≠ cid →
      h.getClient mid' = some c' → c'.sendClosed = false →
      c'.sendQueue.length < c'.sendCap →
      (h.broadcastToQuiz quizCode msg).1.getClient mid'
        = some { c' with sendQueue := c'.sendQueue ++ [msg] }) ∧
    cid ∉ ((h.broadcastToQuiz quizCode msg).1.runUnregister cid).1.clients ∧
    cid ∉ ((h.broadcastToQuiz quizCode msg).1.runUnregister cid).1.roomMembers quizCode ∧
    ((h.broadcastToQuiz quizCode msg).1.runUnregister cid).1.panicked = h.panicked := by
  obtain ⟨hm2, hg2⟩ := broadcastLoop_full_mem msg (h.roomMembers quizCode) h cid c
    hrnd hmem hc hopen hfull
  obtain ⟨hfc, hfr, hfp, _, hfpan⟩ :=
    broadcastLoop_fields msg (h.roomMembers quizCode) h
  have hroomeq : ∀ code, (h.broadcastToQuiz quizCode msg).1.roomMembers code
      = h.roomMembers code := by
    intro code
    unfold Hub.roomMembers Hub.broadcastToQuiz
    rw [hfr]
  have hrem := runUnregister_removes (h.broadcastToQuiz quizCode msg).1 cid c
    hg2 (by rw [show (h.broadcastToQuiz quizCode msg).1.clients = h.clients from hfc]; exact hin)
    (by rw [show (h.broadcastToQuiz quizCode msg).1.clients = h.clients from hfc]; exact hcnd)
    (by rw [hqc]; exact hnqc)
    (by rw [hqc, hroomeq]; exact hmem)
    (by rw [hqc, hroomeq]; exact hrnd)
    hopen hdone
  refine ⟨hm2, hg2, ?_, hrem.1, ?_, ?_⟩
  · intro mid' c' hmem' _ hc' hopen' hspace'
    exact broadcastLoop_space_enqueued msg (h.roomMembers quizCode) h mid' c'
      hrnd hmem' hc' hopen' hspace'
  · have := hrem.2.1
    rw [hqc] at this
    exact this
  · rw [hrem.2.2]
    exact hfpan

/-- A client whose bounded send queue is saturated (capacity 1, one
message queued). -/
def c8FullClient : Client :=
  ⟨0, "R", some ⟨5, "eve", ""⟩, false, [("x", WireData.emptyMsg)], 1, false, false⟩

/-- A client with room in its send queue. -/
def c8SpaceClient : Client := ⟨1, "R", some ⟨6, "bob", ""⟩, false, [], 256, false, false⟩

/-- A room holding the saturated client and the one with space. -/
def c8Hub : Hub :=
  ⟨[c8FullClient, c8SpaceClient], [0, 1], [("R", [0, 1])], [("R", 2)],
    [(5, 0), (6, 1)], [], [], false⟩

/-- Witness for C8: broadcasting into the concrete room queues the full
client for unregistration without touching its queue, appends the
message to the other client's queue, and the unregister processing
removes the full client without a panic. -/
theorem c8_backpressure_witness :
    0 ∈ (c8Hub.broadcastToQuiz "R" ("question", WireData.emptyMsg)).2 ∧
    (c8Hub.broadcastToQuiz "R" ("question", WireData.emptyMsg)).1.getClient 0
      = some c8FullClient ∧
    (c8Hub.broadcastToQuiz "R" ("question", WireData.emptyMsg)).1.getClient 1
      = some { c8SpaceClient with
          sendQueue := c8SpaceClient.sendQueue ++ [("question", WireData.emptyMsg)] } ∧
    0 ∉ (((c8Hub.broadcastToQuiz "R" ("question", WireData.emptyMsg)).1.runUnregister
      0).1.clients) ∧
    0 ∉ (((c8Hub.broadcastToQuiz "R" ("question", WireData.emptyMsg)).1.runUnregister
      0).1.roomMembers "R") ∧
    ((c8Hub.broadcastToQuiz "R" ("question", WireData.emptyMsg)).1.runUnregister
      0).1.panicked = c8Hub.panicked := by
  have T := c8_backpressure_drops_full_connection c8Hub "R"
    ("question", WireData.emptyMsg) 0 c8FullClient
    (by decide) (by decide) rfl rfl (by decide) rfl rfl (by decide) (by decide) (by decide)
  exact ⟨T.1, T.2.1,
    T.2.2.1 1 c8SpaceClient (by decide) (by decide) rfl rfl (by decide),
    T.2.2.2.1, T.2.2.2.2.1, T.2.2.2.2.2⟩

/-- Witness for the amended C2: the scoring equations at concrete
inputs, including an in-range correct answer scored by the formula. -/
theorem c2_calculateScore_bounded_spec_witness :
    calculateScore "London" "Paris" 3 = 0 ∧
    calculateScore "Paris" "Paris" 42 = max 0 (1000 - 10 * 42) ∧
    calculateScore "Paris" "Paris" 0 = 1000 ∧
    calculateScore "Paris" "Paris" 150 = 0 :=
  ⟨c2_calculateScore_bounded_spec.1 "London" "Paris" 3 (by decide),
    c2_calculateScore_bounded_spec.2.1 "Paris" 42 (by decide) (by decide),
    c2_calculateScore_bounded_spec.2.2.1 "Paris",
    c2_calculateScore_bounded_spec.2.2.2 "Paris"⟩

/-- A non-host participant connection sitting in room Q. -/
def c3Participant : Client := ⟨1, "Q", some ⟨2, "bob", ""⟩, false, [], 256, false, false⟩

/-- A hub whose room Q holds only that non-host participant. -/
def c3Hub : Hub := ⟨[c3Participant], [1], [("Q", [1])], [("Q", 1)], [(2, 1)], [], [], false⟩

/-- C3 (counterexample): StartQuiz broadcasts the host-variant DTO — the
correct-answer marker present — as the single payload for the whole
room, and the hub enqueues that same payload onto a non-host
connection, so a non-host recipient of a question event receives the
correct answer on the quiz-start path. -/
theorem c3_broadcast_carries_answer_to_nonhost :
    (∃ db1, startQuiz raceDB "Q" 100 = .ok (db1,
      [OutMsg.broadcast "Q" "question"
        (WireData.questionMsg ⟨10, "one plus one?", [], 30, "2"⟩ 0 2 1)])) ∧
    (QuestionDTO.mk 10 "one plus one?" [] 30 "2").correctAnswer = "2" ∧
    ("2" : String) ≠ "" ∧
    c3Participant.isHost = false ∧
    (c3Hub.broadcastToQuiz "Q"
        ("question", WireData.questionMsg ⟨10, "one plus one?", [], 30, "2"⟩ 0 2 1)).1.getClient 1
      = some { c3Participant with sendQueue := [("question",
          WireData.questionMsg ⟨10, "one plus one?", [], 30, "2"⟩ 0 2 1)] } :=
  ⟨⟨_, rfl⟩, rfl, by decide, rfl, rfl⟩

/-- C3 (amended): only the per-user participant advance withholds the
correct-answer marker; the quiz-start and host-driven next-question
broadcasts carry the host-variant payload — marker included — to the
whole room. In detail: the participant DTO variant always has an empty
marker and the host variant carries the source answer; the per-user
question message uses the participant variant; the start and
host-advance broadcasts use the host variant. -/
theorem c3_amended_marker_paths :
    (∀ q : Question, (q.toDTO false).correctAnswer = ""
      ∧ (q.toDTO true).correctAnswer = q.correctAnswer) ∧
    (∀ (db : DB) (cache : Cache) (userID : Nat) (quizCode : String) (nextIndex : Int)
        (quiz : Quiz),
      db.getQuizByCode quizCode = .ok quiz →
      db.getQuizByID quiz.id = .ok quiz →
      quiz.creatorID ≠ userID →
      0 ≤ nextIndex →
      nextIndex < ((db.getQuizQuestions quiz.id).length : Int) →
      ∃ dto : QuestionDTO,
        handleNextQuestionForUser db cache userID quizCode nextIndex
          = .ok (cache, [OutMsg.toUser userID "question"
              (WireData.questionMsg dto nextIndex (db.getQuizQuestions quiz.id).length
                quiz.id)]) ∧
        dto.correctAnswer = "") ∧
    (∀ (db : DB) (quizCode : String) (userID : Nat) (quiz : Quiz)
        (hfind : db.getQuizByCode quizCode = .ok quiz)
        (hne : (db.getQuizQuestions quiz.id).length ≠ 0),
      ∃ db1 dto,
        startQuiz db quizCode userID = .ok (db1, [OutMsg.broadcast quizCode "question"
          (WireData.questionMsg dto 0 (db.getQuizQuestions quiz.id).length quiz.id)]) ∧
        dto.correctAnswer
          = ((db.getQuizQuestions quiz.id).get ⟨0, Nat.pos_of_ne_zero hne⟩).correctAnswer) ∧
    (∀ (db : DB) (quizCode : String) (currentIndex : Int) (quiz : Quiz)
        (hfind : db.getQuizByCode quizCode = .ok quiz)
        (hnn : 0 ≤ currentIndex + 1)
        (hlt : currentIndex + 1 < ((db.getQuizQuestions quiz.id).length : Int)),
      ∃ dto,
        handleNextQuestion db quizCode currentIndex
          = .ok [OutMsg.broadcast quizCode "question"
              (WireData.questionMsg dto (currentIndex + 1)
                (db.getQuizQuestions quiz.id).length quiz.id)] ∧
        dto.correctAnswer
          = ((db.getQuizQuestions quiz.id).get
              ⟨(currentIndex + 1).toNat, by omega⟩).correctAnswer) := by
  refine ⟨fun q => ⟨rfl, rfl⟩, ?_, ?_, ?_⟩
  · intro db cache userID quizCode nextIndex quiz hfind hid hnothost hnn hlt
    have hhost : db.isUserHost quiz.id userID = .ok false := by
      unfold DB.isUserHost
      rw [hid]
      simp [hnothost]
    refine ⟨((db.getQuizQuestions quiz.id).get ⟨nextIndex.toNat, by omega⟩).toDTO false,
      ?_, rfl⟩
    simp only [handleNextQuestionForUser, hfind, hhost]
    rw [if_neg (by simp), dif_neg (by omega : ¬ ((db.getQuizQuestions quiz.id).length : Int)
      ≤ nextIndex), dif_neg (by omega : ¬ nextIndex < 0)]
  · intro db quizCode userID quiz hfind hne
    refine ⟨(db.resetQuizProgress quiz.id).updateQuiz { quiz with isActive := true },
      ((db.getQuizQuestions quiz.id).get ⟨0, Nat.pos_of_ne_zero hne⟩).toDTO true,
      ?_, rfl⟩
    simp only [startQuiz, hfind, getQuizQuestions_resetQuizProgress]
    rw [dif_neg hne]
  · intro db quizCode currentIndex quiz hfind hnn hlt
    refine ⟨((db.getQuizQuestions quiz.id).get
        ⟨(currentIndex + 1).toNat, by omega⟩).toDTO true, ?_, rfl⟩
    simp only [handleNextQuestion, hfind]
    rw [dif_neg (by omega : ¬ ((db.getQuizQuestions quiz.id).length : Int)
      ≤ currentIndex + 1), dif_neg (by omega : ¬ currentIndex + 1 < 0)]

/-- Witness for the amended C3 at the concrete two-question store: the
per-user advance sends the answer-free variant, while quiz start and the
host advance broadcast variants carrying the correct answer. -/
theorem c3_amended_marker_paths_witness :
    ((⟨10, 1, "one plus one?", [], "2", 30⟩ : Question).toDTO false).correctAnswer = "" ∧
    (∃ dto : QuestionDTO,
      handleNextQuestionForUser raceDB ⟨[]⟩ 1 "Q" 1
        = .ok (⟨[]⟩, [OutMsg.toUser 1 "question"
            (WireData.questionMsg dto 1 (raceDB.getQuizQuestions 1).length 1)]) ∧
      dto.correctAnswer = "") ∧
    (∃ db1 dto,
      startQuiz raceDB "Q" 100 = .ok (db1, [OutMsg.broadcast "Q" "question"
        (WireData.questionMsg dto 0 (raceDB.getQuizQuestions 1).length 1)]) ∧
      dto.correctAnswer
        = ((raceDB.getQuizQuestions 1).get ⟨0, by decide⟩).correctAnswer) ∧
    (∃ dto,
      handleNextQuestion raceDB "Q" 0
        = .ok [OutMsg.broadcast "Q" "question"
            (WireData.questionMsg dto 1 (raceDB.getQuizQuestions 1).length 1)] ∧
      dto.correctAnswer
        = ((raceDB.getQuizQuestions 1).get ⟨1, by decide⟩).correctAnswer) := by
  refine ⟨(c3_amended_marker_paths.1 ⟨10, 1, "one plus one?", [], "2", 30⟩).1, ?_, ?_, ?_⟩
  · exact c3_amended_marker_paths.2.1 raceDB ⟨[]⟩ 1 "Q" 1 ⟨1, 100, "Q", true⟩
      rfl rfl (by decide) (by decide) (by decide)
  · exact c3_amended_marker_paths.2.2.1 raceDB "Q" 100 ⟨1, 100, "Q", true⟩ rfl (by decide)
  · obtain ⟨dto, heq, hca⟩ := c3_amended_marker_paths.2.2.2 raceDB "Q" 0 ⟨1, 100, "Q", true⟩
      rfl (by decide) (by decide)
    exact ⟨dto, heq, hca⟩

/-! ## Inbound message handling (Client.handleMessage, hub.go)

The inbound bytes are modelled post-parse: `none` stands for any payload
json.Unmarshal rejects (invalid JSON, a non-object envelope, a
non-string type field); `some (t, data)` is a decoded envelope, with
`data` the dynamically-typed `interface\x7b\x7d` value. Go numbers
decode to float64; the handler only converts them to integers, so the
model carries `Int`. A failed Go type assertion (`x.(string)` on a
non-string, including nil for a missing key) is a runtime panic; with no
`recover` in `readPump`, it crashes the reading goroutine and the
process — modelled as the `goPanic` outcome. -/

/-- A decoded JSON value (the shape of `interface\x7b\x7d` data). -/
inductive JValue where
  | jnull
  | jbool (b : Bool)
  | jnum (n : Int)
  | jstr (s : String)
  | jarr (elems : List JValue)
  | jobj (fields : List (String × JValue))

/-- Outcome of Client.handleMessage on one inbound message. -/
inductive HandleOutcome where
  | discarded
  | joined (u : UserInfo)
  | answerBroadcast (quizCode : String) (userId : Nat) (questionId : Nat)
  | nextQuestionCall (quizCode : String) (currentIndex : Int)
  | goPanic (assertion : String)
deriving Repr, DecidableEq

/-- Client.handleMessage: unparseable payloads are logged and dropped;
known envelope types run unchecked type assertions on their data
fields, in the evaluation order of the Go source, panicking on the
first mismatch; the join path treats a non-object `data` or `user` as a
silent skip (those two are comma-ok guarded). -/
def handleMessage (msg : Option (String × JValue)) : HandleOutcome :=
  match msg with
  | none => .discarded
  | some (t, data) =>
    if t = "join_quiz" then
      match data with
      | .jobj fields =>
        match fields.lookup "user" with
        | some (.jobj userFields) =>
          match userFields.lookup "userId" with
          | some (.jnum uid) =>
            match userFields.lookup "username" with
            | some (.jstr uname) =>
              let email := match userFields.lookup "email" with
                | some (.jstr e) => e
                | _ => ""
              .joined ⟨uid.toNat, uname, email⟩
            | _ => .goPanic "user username is not a string"
          | _ => .goPanic "user userId is not a float64"
        | _ => .discarded
      | _ => .discarded
    else if t = "start_quiz" then .discarded
    else if t = "answer_submitted" then
      match data with
      | .jobj fields =>
        match fields.lookup "quizCode" with
        | some (.jstr quizCode) =>
          match fields.lookup "questionId" with
          | some (.jnum qid) =>
            match fields.lookup "answer" with
            | some (.jstr _) =>
              match fields.lookup "userId" with
              | some (.jnum uid) => .answerBroadcast quizCode uid.toNat qid.toNat
              | _ => .goPanic "data userId is not a float64"
            | _ => .goPanic "data answer is not a string"
          | _ => .goPanic "data questionId is not a float64"
        | _ => .goPanic "data quizCode is not a string"
      | _ => .discarded
    else if t = "next_question" then
      match data with
      | .jobj fields =>
        match fields.lookup "quizCode" with
        | some (.jstr quizCode) =>
          match fields.lookup "currentIndex" with
          | some (.jnum ci) => .nextQuestionCall quizCode ci
          | _ => .goPanic "data currentIndex is not a float64"
        | _ => .goPanic "data quizCode is not a string"
      | _ => .discarded
    else .discarded

/-- C9: malformed inbound payloads are claimed to be logged and
discarded with the connection unaffected. That holds for bytes that do
not decode to an envelope, but a well-formed envelope of a known type
whose data fields have the wrong shape hits an unchecked Go type
assertion: on `\x7b"type":"answer_submitted","data":\x7b\x7d\x7d` the
handler panics instead of discarding, and readPump has no recover, so
the reading goroutine (and with it the process) crashes. -/
theorem c9_wrong_shape_panics :
    handleMessage none = .discarded ∧
    handleMessage (some ("answer_submitted", .jobj []))
      = .goPanic "data quizCode is not a string" ∧
    handleMessage (some ("join_quiz",
        .jobj [("user", .jobj [("userId", .jstr "not-a-number")])]))
      = .goPanic "user userId is not a float64" ∧
    handleMessage (some ("next_question", .jobj [("quizCode", .jnum 3)]))
      = .goPanic "data quizCode is not a string" := by
  refine ⟨rfl, ?_, ?_, ?_⟩ <;> rfl

end QuizServer
